import Mathlib

/-!
# ecs-formation: `cmd/service/init.go`

A shallow embedding of the two functions of `cmd/service/init.go`:

* `ServiceCmd.PersistentPreRunE`, the flag-validation hook that fills the
  package-level variables `projectDir`, `cluster`, `serviceName`,
  `parameters` and `jsonOutput`;
* `createClusterPlans`, which asks the cluster service for its update plans,
  walks them while calling `util.Println` / `util.PrintlnYellow`, and, when
  `jsonOutput` is set, prints one JSON document with `fmt.Println`.

Go pointers are `Option`s, a nil-pointer dereference is a panic, and the
package-level switch `util.Output` is threaded through every step.
-/

namespace EcsFormation

/-- Go `error` values, identified by their message (`errors.New msg`). -/
abbrev Error := String

/-! ## Package-level state and the pre-run hook -/

/-- The package-level variables of `cmd/service` (`var ( ... )`, lines 17-23),
together with the one external effect of the hook, the call `client.Init`. -/
structure Globals where
  projectDir : String
  cluster : String
  serviceName : String
  parameters : List (String × String)
  jsonOutput : Bool
  clientInit : Option (String × Bool)
  deriving DecidableEq, Repr

/-- What the hook reads from its surroundings: the result of
`cmdutil.GetProjectDir`, the configured region, and the result of each flag
lookup on the command (`Except.error` is a non-nil `err`). -/
structure Invocation where
  GetProjectDir : Except Error String
  awsRegion : String
  clusterFlag : Except Error String
  serviceFlag : Except Error String
  allFlag : Except Error Bool
  parameterFlag : Except Error (List String)
  jsonOutputFlag : Except Error Bool

/-- The hook `ServiceCmd.PersistentPreRunE` (lines 28-77).  It returns the
error (`none` is `nil`) and the package-level state it leaves behind.
`ParseKeyValues` is `util.ParseKeyValues`, taken as a parameter. -/
def PersistentPreRunE (ParseKeyValues : List String → List (String × String))
    (inv : Invocation) (g : Globals) : Option Error × Globals :=
  match inv.GetProjectDir with
  | .error err => (some err, g)
  | .ok pd =>
    let g := { g with projectDir := pd }
    let g := { g with clientInit := some (inv.awsRegion, false) }
    match inv.clusterFlag with
    | .error err => (some err, g)
    | .ok cl =>
      if cl = "" then
        (some "-c (--cluster) is required", g)
      else
        let g := { g with cluster := cl }
        match inv.serviceFlag with
        | .error err => (some err, g)
        | .ok sv =>
          let g := { g with serviceName := sv }
          match inv.allFlag with
          | .error err => (some err, g)
          | .ok all =>
            if g.serviceName = "" ∧ all = false then
              (some "should specify '-s service_name' or '--all' option", g)
            else
              match inv.parameterFlag with
              | .error err => (some err, g)
              | .ok paramTokens =>
                let g := { g with parameters := ParseKeyValues paramTokens }
                match inv.jsonOutputFlag with
                | .error err => (some err, g)
                | .ok jo =>
                  let g := { g with jsonOutput := jo }
                  (none, g)

/-- An invocation in which the project directory resolves and every flag
lookup succeeds. -/
def Invocation.ofFlags (pd region cl sv : String) (all : Bool)
    (paramTokens : List String) (jo : Bool) : Invocation :=
  { GetProjectDir := .ok pd, awsRegion := region, clusterFlag := .ok cl,
    serviceFlag := .ok sv, allFlag := .ok all, parameterFlag := .ok paramTokens,
    jsonOutputFlag := .ok jo }

/-! ## The `fmt` verbs used by the report -/

namespace fmt

/-- An operand handed to a formatting call: a Go `string`, an `int64` or a
`bool`. -/
inductive Arg
  | str (s : String)
  | int (i : Int)
  | bool (b : Bool)
  deriving DecidableEq, Repr

/-- The default (`%v`) rendering of an operand. -/
def Arg.text : Arg → String
  | .str s => s
  | .int i => toString i
  | .bool b => if b then "true" else "false"

/-- The Go type name `fmt` shows for an operand it cannot format. -/
def Arg.goType : Arg → String
  | .str _ => "string"
  | .int _ => "int64"
  | .bool _ => "bool"

/-- Whether the verb `%c` applies to the operand: `%v` to all, `%s` to strings,
`%d` to integers, `%t` to booleans. -/
def Arg.accepts : Arg → Char → Bool
  | _, 'v' => true
  | .str _, 's' => true
  | .int _, 'd' => true
  | .bool _, 't' => true
  | _, _ => false

/-- One verb applied to one operand; a verb that does not apply yields Go's
`%!verb(type=value)`. -/
def verb (c : Char) (a : Arg) : List Char :=
  if a.accepts c then a.text.toList
  else '%' :: '!' :: c :: '(' :: (a.goType.toList ++ '=' :: (a.text.toList ++ [')']))

/-- Operands left over once the format is exhausted: `%!(EXTRA type=value, ...)`. -/
def extra (args : List Arg) : List Char :=
  match args with
  | [] => []
  | _ :: _ => "%!(EXTRA ".toList ++
      (", ".intercalate (args.map fun a => a.goType ++ "=" ++ a.text)).toList ++ [')']

/-- The formatting loop of `fmt.Sprintf` over the characters of the format. -/
def sprintfAux : List Char → List Arg → List Char
  | [], args => extra args
  | c :: rest, args =>
    if c = '%' then
      match rest, args with
      | [], args => "%!(NOVERB)".toList ++ extra args
      | v :: rest2, [] =>
        if v = '%' then '%' :: sprintfAux rest2 []
        else '%' :: '!' :: v :: ("(MISSING)".toList ++ sprintfAux rest2 [])
      | v :: rest2, a :: as =>
        if v = '%' then '%' :: sprintfAux rest2 (a :: as)
        else verb v a ++ sprintfAux rest2 as
    else c :: sprintfAux rest args

/-- Go's `fmt.Sprintf`, for the verbs `%s`, `%d`, `%t`, `%v` and `%%`. -/
def Sprintf (format : String) (args : List Arg) : String :=
  String.mk (sprintfAux format.toList args)

end fmt

/-! ## Data model

Every field the source dereferences with `*` or compares with `nil` is an
`Option`; fields reached by plain selection are values. -/

/-- The nullable integer `null.Int`: the source reads `.Valid` and `.Int64`. -/
structure NullInt where
  Int64 : Int
  Valid : Bool
  deriving DecidableEq, Repr

/-- The nullable string `null.String`: the source reads `.Valid` and `.String`
(here `Str`). -/
structure NullString where
  Str : String
  Valid : Bool
  deriving DecidableEq, Repr

namespace ecs

/-- The AWS SDK type `ecs.DeploymentConfiguration`. -/
structure DeploymentConfiguration where
  MaximumPercent : Option Int
  MinimumHealthyPercent : Option Int
  deriving DecidableEq, Repr

/-- The AWS SDK type `ecs.LoadBalancer`. -/
structure LoadBalancer where
  ContainerName : Option String
  ContainerPort : Option Int
  LoadBalancerName : Option String
  TargetGroupArn : Option String
  deriving DecidableEq, Repr

/-- The AWS SDK type `ecs.PlacementStrategy`. -/
structure PlacementStrategy where
  Field : Option String
  Type_ : Option String
  deriving DecidableEq, Repr

/-- The AWS SDK type `ecs.PlacementConstraint`. -/
structure PlacementConstraint where
  Expression : Option String
  Type_ : Option String
  deriving DecidableEq, Repr

/-- The fields of the AWS SDK type `ecs.Service` that the report reads. -/
structure Service where
  ServiceName : Option String
  ServiceArn : Option String
  TaskDefinition : Option String
  DesiredCount : Option Int
  PendingCount : Option Int
  RunningCount : Option Int
  RoleArn : Option String
  DeploymentConfiguration : Option DeploymentConfiguration
  LoadBalancers : List LoadBalancer
  Status : Option String
  PlacementStrategy : List PlacementStrategy
  PlacementConstraints : List PlacementConstraint
  deriving DecidableEq, Repr

end ecs

namespace applicationautoscaling

/-- The fields of the AWS SDK type `applicationautoscaling.ScalableTarget` that
the report reads. -/
structure ScalableTarget where
  ResourceId : Option String
  MinCapacity : Option Int
  MaxCapacity : Option Int
  RoleARN : Option String
  deriving DecidableEq, Repr

end applicationautoscaling

namespace types

/-- Modelled from the spec: the declaration of `types.ServiceStack` is missing;
it is the spec's `CurrentServiceEntry`, a service snapshot with an optional
autoscaling state. -/
structure ServiceStack where
  Service : ecs.Service
  AutoScaling : Option applicationautoscaling.ScalableTarget
  deriving DecidableEq, Repr

/-- Modelled from the spec: the declaration of the desired load-balancer
binding is missing; its target reference is nullable, container name and port
are plain values. -/
structure LoadBalancer where
  Name : NullString
  TargetGroupARN : NullString
  ContainerName : String
  ContainerPort : Int
  deriving DecidableEq, Repr

/-- Modelled from the spec: the declaration of the desired autoscaling target
is missing; it is the spec's `{MinCapacity, MaxCapacity, RoleRef}`. -/
structure ServiceScalableTarget where
  MinCapacity : Int
  MaxCapacity : Int
  Role : String
  deriving DecidableEq, Repr

/-- Modelled from the spec: the declaration of the desired autoscaling block is
missing; it is the spec's `optional {Target: ...}`, with the target itself
checked against `nil` by the source. -/
structure AutoScaling where
  Target : Option ServiceScalableTarget
  deriving DecidableEq, Repr

/-- Modelled from the spec: the declaration of a desired placement-strategy
rule is missing; it is the spec's `{Type, Field}`. -/
structure PlacementStrategy where
  Type_ : String
  Field : String
  deriving DecidableEq, Repr

/-- Modelled from the spec: the declaration of a desired placement-constraint
rule is missing; it is the spec's `{Type, Expression}`. -/
structure PlacementConstraint where
  Type_ : String
  Expression : String
  deriving DecidableEq, Repr

/-- Modelled from the spec: the declaration of `types.Service` is missing; it
is the spec's `DesiredServiceSpec`, with the two percentages nullable
integers. -/
structure Service where
  Name : String
  TaskDefinition : String
  DesiredCount : Int
  KeepDesiredCount : Bool
  MinimumHealthyPercent : NullInt
  MaximumPercent : NullInt
  Role : String
  LoadBalancers : List LoadBalancer
  AutoScaling : Option AutoScaling
  PlacementStrategy : List PlacementStrategy
  PlacementConstraints : List PlacementConstraint
  deriving DecidableEq, Repr

/-- Modelled from the spec: the declaration of `types.ServiceUpdatePlan` is
missing; it is the spec's `ClusterPlan`, whose instance identifiers, current
services and planned services are ordered sequences. -/
structure ServiceUpdatePlan where
  Name : String
  InstanceARNs : List (Option String)
  CurrentServices : List ServiceStack
  NewServices : List Service
  deriving DecidableEq, Repr

end types

/-- The slice `[]*types.ServiceUpdatePlan`: each element is a pointer. -/
abbrev Plans := List (Option types.ServiceUpdatePlan)

/-! ## Execution model -/

/-- A call into the `util` printing helpers. -/
inductive Call
  | Println
  | PrintlnYellow (format : String) (args : List fmt.Arg)
  deriving DecidableEq, Repr

/-- What the process does that an observer can see: a call of a `util` helper,
recorded with the value `util.Output` has at that moment, or a line handed to
`fmt.Println`. -/
inductive Event
  | util (Output : Bool) (call : Call)
  | stdout (text : String)
  deriving DecidableEq, Repr

/-- The outcome of running a piece of Go code: its result (`none` when it
panicked on a nil pointer), the value of `util.Output` afterwards, and the
events it produced, in order. -/
structure Step (α : Type) where
  result : Option α
  Output : Bool
  events : List Event

/-- Go code, run from a given value of `util.Output`. -/
def Go (α : Type) : Type := Bool → Step α

/-- A value, computed without effect. -/
def Go.pure {α : Type} (a : α) : Go α := fun o => ⟨some a, o, []⟩

/-- Sequencing: a panic in the first part skips the second. -/
def Go.bind {α β : Type} (m : Go α) (f : α → Go β) : Go β := fun o =>
  match (m o).result with
  | none => ⟨none, (m o).Output, (m o).events⟩
  | some a =>
    ⟨(f a (m o).Output).result, (f a (m o).Output).Output,
      (m o).events ++ (f a (m o).Output).events⟩

instance : Monad Go where
  pure := Go.pure
  bind := Go.bind

/-- The dereference `*p`: a nil pointer panics. -/
def deref {α : Type} (p : Option α) : Go α := fun o => ⟨p, o, []⟩

/-- The assignment `util.Output = b`. -/
def setOutput (b : Bool) : Go Unit := fun _ => ⟨some (), b, []⟩

/-- A `for _, x := range xs` loop. -/
def forEach {α : Type} (xs : List α) (body : α → Go Unit) : Go Unit :=
  match xs with
  | [] => pure ()
  | x :: rest => do
    body x
    forEach rest body

/-- An `if cond { ... }` statement without `else`. -/
def ifThen (cond : Prop) [Decidable cond] (body : Go Unit) : Go Unit :=
  if cond then body else pure ()

/-- A function body with one deferred call: the deferred code runs when the
body returns and also when it panics, and a panic keeps propagating. -/
def withDefer {α : Type} (deferred : Go Unit) (body : Go α) : Go α := fun o =>
  let s := body o
  let d := deferred s.Output
  ⟨s.result.bind fun a => d.result.map fun _ => a, d.Output, s.events ++ d.events⟩

namespace util

/-- The call `util.Println()`. -/
def Println : Go Unit := fun o => ⟨some (), o, [Event.util o Call.Println]⟩

/-- The call `util.PrintlnYellow(format, args...)`. -/
def PrintlnYellow (format : String) (args : List fmt.Arg) : Go Unit :=
  fun o => ⟨some (), o, [Event.util o (Call.PrintlnYellow format args)]⟩

end util

/-- The call `fmt.Println(text)`. -/
def fmtPrintln (text : String) : Go Unit := fun o => ⟨some (), o, [Event.stdout text]⟩

/-- Modelled from the spec: the `util` package is missing.  Its helpers print
only while `util.Output` is set ("printing is globally enabled/disabled around
a block"); `PrintlnYellow` formats its operands like `fmt.Sprintf`. -/
def Call.text : Call → String
  | .Println => ""
  | .PrintlnYellow format args => fmt.Sprintf format args

/-- Modelled from the spec: the lines that reach standard output, one per
printing call: a `util` call made while `util.Output` is off writes nothing,
`fmt.Println` always writes. -/
def written : List Event → List String
  | [] => []
  | Event.util true c :: es => c.text :: written es
  | Event.util false _ :: es => written es
  | Event.stdout t :: es => t :: written es

/-! ## `createClusterPlans` -/

/-- The body of the loop over `cs.LoadBalancers` (lines 135-144). -/
def printCurrentLoadBalancer (lb : ecs.LoadBalancer) : Go Unit := do
  ifThen (lb.LoadBalancerName.isSome) do
    util.PrintlnYellow "        ELB = %s:" [.str (← deref lb.LoadBalancerName)]
  ifThen (lb.TargetGroupArn.isSome) do
    util.PrintlnYellow "        TargetGroupARN = %s:" [.str (← deref lb.TargetGroupArn)]
  util.PrintlnYellow "            ContainerName = %v" [.str (← deref lb.ContainerName)]
  util.PrintlnYellow "            ContainerPort = %v" [.int (← deref lb.ContainerPort)]

/-- The body of the loop over `plan.CurrentServices` (lines 120-175). -/
def printCurrentService (cst : types.ServiceStack) : Go Unit := do
  let cs := cst.Service
  util.PrintlnYellow "        ####[%s]####\n" [.str (← deref cs.ServiceName)]
  util.PrintlnYellow "        ServiceARN = %s" [.str (← deref cs.ServiceArn)]
  util.PrintlnYellow "        TaskDefinition = %s" [.str (← deref cs.TaskDefinition)]
  util.PrintlnYellow "        DesiredCount = %d" [.int (← deref cs.DesiredCount)]
  util.PrintlnYellow "        PendingCount = %d" [.int (← deref cs.PendingCount)]
  util.PrintlnYellow "        RunningCount = %d" [.int (← deref cs.RunningCount)]
  ifThen (cs.RoleArn.isSome) do
    util.PrintlnYellow "        Role = %d" [.str (← deref cs.RoleArn)]
  ifThen (cs.DeploymentConfiguration.isSome) do
    let dc ← deref cs.DeploymentConfiguration
    util.PrintlnYellow "        MinimumHealthyPercent = %d" [.int (← deref dc.MinimumHealthyPercent)]
    util.PrintlnYellow "        MaximumPercent = %d" [.int (← deref dc.MaximumPercent)]
  forEach cs.LoadBalancers printCurrentLoadBalancer
  util.PrintlnYellow "        STATUS = %s" [.str (← deref cs.Status)]
  ifThen (cst.AutoScaling.isSome) do
    let asg ← deref cst.AutoScaling
    util.PrintlnYellow "        AutoScaling:" []
    util.PrintlnYellow "            ResourceId = %s" [.str (← deref asg.ResourceId)]
    util.PrintlnYellow "            MinCapacity = %v" [.int (← deref asg.MinCapacity)]
    util.PrintlnYellow "            MaxCapacity = %v" [.int (← deref asg.MaxCapacity)]
    util.PrintlnYellow "            RoleARN = %s" [.str (← deref asg.RoleARN)]
  ifThen (cs.PlacementStrategy.length > 0) do
    util.PrintlnYellow "        PlacementStrategy:" []
  forEach cs.PlacementStrategy fun ps => do
    util.PrintlnYellow "          -" []
    util.PrintlnYellow "            Type = %s" [.str (← deref ps.Type_)]
    util.PrintlnYellow "            Field = %s" [.str (← deref ps.Field)]
  ifThen (cs.PlacementConstraints.length > 0) do
    util.PrintlnYellow "        PlacementConstraints:" []
  forEach cs.PlacementConstraints fun pc => do
    util.PrintlnYellow "          -" []
    util.PrintlnYellow "            Type = %s" [.str (← deref pc.Type_)]
    util.PrintlnYellow "            Field = %s" [.str (← deref pc.Expression)]
  util.Println

/-- The body of the loop over `add.LoadBalancers` (lines 193-202). -/
def printNewLoadBalancer (lb : types.LoadBalancer) : Go Unit := do
  ifThen (lb.Name.Valid) do
    util.PrintlnYellow "        ELB:%v" [.str lb.Name.Str]
  ifThen (lb.TargetGroupARN.Valid) do
    util.PrintlnYellow "            TargetGroupARN:%v" [.str lb.TargetGroupARN.Str]
  util.PrintlnYellow "            ContainerName:%v" [.str lb.ContainerName]
  util.PrintlnYellow "            ContainerPort:%v" [.int lb.ContainerPort]

/-- The body of the loop over `plan.NewServices` (lines 181-230). -/
def printNewService (add : types.Service) : Go Unit := do
  util.PrintlnYellow "        ####[%s]####\n" [.str add.Name]
  util.PrintlnYellow "        TaskDefinition = %s" [.str add.TaskDefinition]
  util.PrintlnYellow "        DesiredCount = %d" [.int add.DesiredCount]
  util.PrintlnYellow "        KeepDesiredCount = %t" [.bool add.KeepDesiredCount]
  ifThen (add.MinimumHealthyPercent.Valid) do
    util.PrintlnYellow "        MinimumHealthyPercent = %d" [.int add.MinimumHealthyPercent.Int64]
  ifThen (add.MaximumPercent.Valid) do
    util.PrintlnYellow "        MaximumPercent = %d" [.int add.MaximumPercent.Int64]
  util.PrintlnYellow "        Role = %v" [.str add.Role]
  forEach add.LoadBalancers printNewLoadBalancer
  ifThen (add.AutoScaling.isSome ∧ (add.AutoScaling.bind fun a => a.Target).isSome) do
    let asg ← deref (add.AutoScaling.bind fun a => a.Target)
    util.PrintlnYellow "        AutoScaling:" []
    util.PrintlnYellow "            MinCapacity = %v" [.int asg.MinCapacity]
    util.PrintlnYellow "            MaxCapacity = %v" [.int asg.MaxCapacity]
    util.PrintlnYellow "            RoleARN = %s" [.str asg.Role]
  ifThen (add.PlacementStrategy.length > 0) do
    forEach add.PlacementStrategy fun ps => do
      util.PrintlnYellow "        PlacementStrategy:" []
      util.PrintlnYellow "          -" []
      util.PrintlnYellow "            Type = %v" [.str ps.Type_]
      util.PrintlnYellow "            Field = %v" [.str ps.Field]
  ifThen (add.PlacementConstraints.length > 0) do
    forEach add.PlacementConstraints fun pc => do
      util.PrintlnYellow "        PlacementConstraints:" []
      util.PrintlnYellow "          -" []
      util.PrintlnYellow "            Type = %v" [.str pc.Type_]
      util.PrintlnYellow "            Expression = %v" [.str pc.Expression]
  util.Println

/-- The body of the loop over `plans` (lines 105-233). -/
def printPlan (planPtr : Option types.ServiceUpdatePlan) : Go Unit := do
  let plan ← deref planPtr
  util.PrintlnYellow "Current status of ECS Cluster '%s':" [.str plan.Name]
  ifThen (plan.InstanceARNs.length > 0) do
    util.PrintlnYellow "    Container Instances as follows:" []
    forEach plan.InstanceARNs fun inst => do
      util.PrintlnYellow "        %s:" [.str (← deref inst)]
  util.Println
  util.PrintlnYellow "    Services as follows:" []
  ifThen (plan.CurrentServices.length = 0) do
    util.PrintlnYellow "         No services are deployed." []
  forEach plan.CurrentServices printCurrentService
  util.Println
  util.PrintlnYellow "Service update plan '%s':" [.str plan.Name]
  util.PrintlnYellow "    Services:" []
  forEach plan.NewServices printNewService
  util.Println

/-- The statements of `createClusterPlans` after the `defer` (lines 99-243).
`CreateServiceUpdatePlans` is what the collaborator call returned (plans and
error; the collaborator itself is outside this file and is taken to print
nothing and to leave `util.Output` alone), `Marshal` is `json.Marshal` on the
plan slice. -/
def createClusterPlansBody (jsonOutput : Bool)
    (CreateServiceUpdatePlans : Plans × Option Error)
    (Marshal : Plans → Except Error String) : Go (Plans × Option Error) := do
  util.PrintlnYellow "Checking services on clusters..." []
  let plans := CreateServiceUpdatePlans.1
  let err := CreateServiceUpdatePlans.2
  if err.isSome then
    pure ([], err)
  else do
    forEach plans printPlan
    if jsonOutput then
      match Marshal plans with
      | .error err => pure (plans, some err)
      | .ok bt => do
        fmtPrintln bt
        pure (plans, none)
    else
      pure (plans, none)

/-- The function `createClusterPlans` (lines 90-244), reading the package
variable `jsonOutput`: in JSON mode it clears `util.Output` and defers setting
it again. -/
def createClusterPlans (jsonOutput : Bool)
    (CreateServiceUpdatePlans : Plans × Option Error)
    (Marshal : Plans → Except Error String) : Go (Plans × Option Error) :=
  if jsonOutput then
    withDefer (setOutput true) (do
      setOutput false
      createClusterPlansBody jsonOutput CreateServiceUpdatePlans Marshal)
  else
    createClusterPlansBody jsonOutput CreateServiceUpdatePlans Marshal

/-! ## The report as a list of calls -/

/-- A script of printing calls, `none` standing for a call whose operand is a
nil dereference: running it performs the calls up to the first `none`. -/
def runCalls : List (Option Call) → Go Unit
  | [] => pure ()
  | none :: _ => deref none
  | some c :: cs => fun o =>
    ⟨(runCalls cs o).result, (runCalls cs o).Output, Event.util o c :: (runCalls cs o).events⟩

/-- The calls a script performs: those before its first `none`. -/
def performed : List (Option Call) → List Call
  | some c :: cs => c :: performed cs
  | _ => []

/-- The report lines of one load-balancer binding of a current service. -/
def currentLoadBalancerCalls (lb : ecs.LoadBalancer) : List (Option Call) :=
  (match lb.LoadBalancerName with
    | none => []
    | some n => [some (Call.PrintlnYellow "        ELB = %s:" [.str n])]) ++
  (match lb.TargetGroupArn with
    | none => []
    | some t => [some (Call.PrintlnYellow "        TargetGroupARN = %s:" [.str t])]) ++
  [lb.ContainerName.map fun v => Call.PrintlnYellow "            ContainerName = %v" [.str v],
   lb.ContainerPort.map fun v => Call.PrintlnYellow "            ContainerPort = %v" [.int v]]

/-- The report block of one current service, line by line. -/
def currentServiceCalls (cst : types.ServiceStack) : List (Option Call) :=
  [cst.Service.ServiceName.map fun v => Call.PrintlnYellow "        ####[%s]####\n" [.str v],
   cst.Service.ServiceArn.map fun v => Call.PrintlnYellow "        ServiceARN = %s" [.str v],
   cst.Service.TaskDefinition.map fun v => Call.PrintlnYellow "        TaskDefinition = %s" [.str v],
   cst.Service.DesiredCount.map fun v => Call.PrintlnYellow "        DesiredCount = %d" [.int v],
   cst.Service.PendingCount.map fun v => Call.PrintlnYellow "        PendingCount = %d" [.int v],
   cst.Service.RunningCount.map fun v => Call.PrintlnYellow "        RunningCount = %d" [.int v]] ++
  (match cst.Service.RoleArn with
    | none => []
    | some r => [some (Call.PrintlnYellow "        Role = %d" [.str r])]) ++
  (match cst.Service.DeploymentConfiguration with
    | none => []
    | some dc =>
      [dc.MinimumHealthyPercent.map fun v =>
         Call.PrintlnYellow "        MinimumHealthyPercent = %d" [.int v],
       dc.MaximumPercent.map fun v =>
         Call.PrintlnYellow "        MaximumPercent = %d" [.int v]]) ++
  cst.Service.LoadBalancers.flatMap currentLoadBalancerCalls ++
  [cst.Service.Status.map fun v => Call.PrintlnYellow "        STATUS = %s" [.str v]] ++
  (match cst.AutoScaling with
    | none => []
    | some asg =>
      [some (Call.PrintlnYellow "        AutoScaling:" []),
       asg.ResourceId.map fun v => Call.PrintlnYellow "            ResourceId = %s" [.str v],
       asg.MinCapacity.map fun v => Call.PrintlnYellow "            MinCapacity = %v" [.int v],
       asg.MaxCapacity.map fun v => Call.PrintlnYellow "            MaxCapacity = %v" [.int v],
       asg.RoleARN.map fun v => Call.PrintlnYellow "            RoleARN = %s" [.str v]]) ++
  (if cst.Service.PlacementStrategy.length > 0 then
    [some (Call.PrintlnYellow "        PlacementStrategy:" [])] else []) ++
  (cst.Service.PlacementStrategy.flatMap fun ps =>
    [some (Call.PrintlnYellow "          -" []),
     ps.Type_.map fun v => Call.PrintlnYellow "            Type = %s" [.str v],
     ps.Field.map fun v => Call.PrintlnYellow "            Field = %s" [.str v]]) ++
  (if cst.Service.PlacementConstraints.length > 0 then
    [some (Call.PrintlnYellow "        PlacementConstraints:" [])] else []) ++
  (cst.Service.PlacementConstraints.flatMap fun pc =>
    [some (Call.PrintlnYellow "          -" []),
     pc.Type_.map fun v => Call.PrintlnYellow "            Type = %s" [.str v],
     pc.Expression.map fun v => Call.PrintlnYellow "            Field = %s" [.str v]]) ++
  [some Call.Println]

/-- The report lines of one load-balancer binding of a planned service. -/
def newLoadBalancerCalls (lb : types.LoadBalancer) : List Call :=
  (if lb.Name.Valid then [Call.PrintlnYellow "        ELB:%v" [.str lb.Name.Str]] else []) ++
  (if lb.TargetGroupARN.Valid then
    [Call.PrintlnYellow "            TargetGroupARN:%v" [.str lb.TargetGroupARN.Str]] else []) ++
  [Call.PrintlnYellow "            ContainerName:%v" [.str lb.ContainerName],
   Call.PrintlnYellow "            ContainerPort:%v" [.int lb.ContainerPort]]

/-- The report entry of one planned service, line by line. -/
def newServiceCalls (add : types.Service) : List Call :=
  [Call.PrintlnYellow "        ####[%s]####\n" [.str add.Name],
   Call.PrintlnYellow "        TaskDefinition = %s" [.str add.TaskDefinition],
   Call.PrintlnYellow "        DesiredCount = %d" [.int add.DesiredCount],
   Call.PrintlnYellow "        KeepDesiredCount = %t" [.bool add.KeepDesiredCount]] ++
  (if add.MinimumHealthyPercent.Valid then
    [Call.PrintlnYellow "        MinimumHealthyPercent = %d" [.int add.MinimumHealthyPercent.Int64]]
   else []) ++
  (if add.MaximumPercent.Valid then
    [Call.PrintlnYellow "        MaximumPercent = %d" [.int add.MaximumPercent.Int64]]
   else []) ++
  [Call.PrintlnYellow "        Role = %v" [.str add.Role]] ++
  add.LoadBalancers.flatMap newLoadBalancerCalls ++
  (match add.AutoScaling.bind fun a => a.Target with
    | none => []
    | some asg =>
      [Call.PrintlnYellow "        AutoScaling:" [],
       Call.PrintlnYellow "            MinCapacity = %v" [.int asg.MinCapacity],
       Call.PrintlnYellow "            MaxCapacity = %v" [.int asg.MaxCapacity],
       Call.PrintlnYellow "            RoleARN = %s" [.str asg.Role]]) ++
  (add.PlacementStrategy.flatMap fun ps =>
    [Call.PrintlnYellow "        PlacementStrategy:" [],
     Call.PrintlnYellow "          -" [],
     Call.PrintlnYellow "            Type = %v" [.str ps.Type_],
     Call.PrintlnYellow "            Field = %v" [.str ps.Field]]) ++
  (add.PlacementConstraints.flatMap fun pc =>
    [Call.PrintlnYellow "        PlacementConstraints:" [],
     Call.PrintlnYellow "          -" [],
     Call.PrintlnYellow "            Type = %v" [.str pc.Type_],
     Call.PrintlnYellow "            Expression = %v" [.str pc.Expression]]) ++
  [Call.Println]

/-- The opening line of the run (line 99). -/
def checkingCall : Call := Call.PrintlnYellow "Checking services on clusters..." []

/-- The report block of one plan (lines 106-232): cluster header, instance
identifiers, current services, then the update-plan section. -/
def planCalls (plan : types.ServiceUpdatePlan) : List (Option Call) :=
  [some (Call.PrintlnYellow "Current status of ECS Cluster '%s':" [.str plan.Name])] ++
  (if plan.InstanceARNs.length > 0 then
    [some (Call.PrintlnYellow "    Container Instances as follows:" [])] else []) ++
  (plan.InstanceARNs.map fun inst =>
    inst.map fun v => Call.PrintlnYellow "        %s:" [.str v]) ++
  [some Call.Println, some (Call.PrintlnYellow "    Services as follows:" [])] ++
  (if plan.CurrentServices.length = 0 then
    [some (Call.PrintlnYellow "         No services are deployed." [])] else []) ++
  plan.CurrentServices.flatMap currentServiceCalls ++
  [some Call.Println,
   some (Call.PrintlnYellow "Service update plan '%s':" [.str plan.Name]),
   some (Call.PrintlnYellow "    Services:" [])] ++
  (plan.NewServices.flatMap fun add => (newServiceCalls add).map some) ++
  [some Call.Println]

/-- The report block of one element of the plan slice; a nil element is a nil
dereference at `plan.Name`. -/
def planPtrCalls : Option types.ServiceUpdatePlan → List (Option Call)
  | none => [none]
  | some plan => planCalls plan

/-- The whole human report for a plan slice. -/
def reportCalls (plans : Plans) : List (Option Call) :=
  some checkingCall :: plans.flatMap planPtrCalls

/-- Both facts of a load-balancer binding that the report prints
unconditionally are present. -/
def ecs.LoadBalancer.complete (lb : ecs.LoadBalancer) : Bool :=
  lb.ContainerName.isSome && lb.ContainerPort.isSome

/-- The mandatory fields of a current service entry are present: identity,
task definition, the three counts, status, every load-balancer container name
and port, every placement rule, and, when an autoscaling state is attached, its
four fields.  The IAM role, the deployment configuration with its percentages
and the autoscaling state itself are optional. -/
def types.ServiceStack.mandatoryPresent (cst : types.ServiceStack) : Bool :=
  cst.Service.ServiceName.isSome && cst.Service.ServiceArn.isSome &&
  cst.Service.TaskDefinition.isSome && cst.Service.DesiredCount.isSome &&
  cst.Service.PendingCount.isSome && cst.Service.RunningCount.isSome &&
  cst.Service.Status.isSome &&
  cst.Service.LoadBalancers.all ecs.LoadBalancer.complete &&
  cst.Service.PlacementStrategy.all (fun ps => ps.Type_.isSome && ps.Field.isSome) &&
  cst.Service.PlacementConstraints.all (fun pc => pc.Type_.isSome && pc.Expression.isSome) &&
  (match cst.AutoScaling with
    | none => true
    | some asg =>
      asg.ResourceId.isSome && asg.MinCapacity.isSome && asg.MaxCapacity.isSome &&
      asg.RoleARN.isSome)

/-- A deployment configuration, when present, carries both percentages. -/
def types.ServiceStack.percentagesPresent (cst : types.ServiceStack) : Bool :=
  match cst.Service.DeploymentConfiguration with
  | none => true
  | some dc => dc.MinimumHealthyPercent.isSome && dc.MaximumPercent.isSome

/-- No pointer that the report dereferences is nil. -/
def types.ServiceUpdatePlan.wellFormed (plan : types.ServiceUpdatePlan) : Bool :=
  plan.InstanceARNs.all Option.isSome &&
  plan.CurrentServices.all fun cst => cst.mandatoryPresent && cst.percentagesPresent

/-- The lines handed to `fmt.Println`, in order: the JSON documents emitted. -/
def documents : List Event → List String
  | [] => []
  | Event.stdout t :: es => t :: documents es
  | Event.util _ _ :: es => documents es

/-- A current service with every field set: the `web` service of the examples. -/
def exampleCurrent : types.ServiceStack :=
  { Service :=
      { ServiceName := some "web"
        ServiceArn := some "arn:aws:ecs:us-east-1:123456789012:service/web"
        TaskDefinition := some "web:3"
        DesiredCount := some 2
        PendingCount := some 0
        RunningCount := some 2
        RoleArn := some "arn:aws:iam::123456789012:role/ecsServiceRole"
        DeploymentConfiguration := some { MaximumPercent := some 200, MinimumHealthyPercent := some 50 }
        LoadBalancers :=
          [{ ContainerName := some "nginx", ContainerPort := some 80,
             LoadBalancerName := some "web-elb", TargetGroupArn := none }]
        Status := some "ACTIVE"
        PlacementStrategy := [{ Field := some "instanceId", Type_ := some "spread" }]
        PlacementConstraints := [] }
    AutoScaling := none }

/-- A planned service whose minimum healthy percent is a present zero and whose
maximum percent is absent. -/
def exampleNew : types.Service :=
  { Name := "web", TaskDefinition := "web:4", DesiredCount := 2, KeepDesiredCount := false
    MinimumHealthyPercent := { Int64 := 0, Valid := true }
    MaximumPercent := { Int64 := 0, Valid := false }
    Role := "ecsServiceRole", LoadBalancers := [], AutoScaling := none
    PlacementStrategy := [], PlacementConstraints := [] }

/-- A plan for one cluster with one instance, one current and one planned
service. -/
def examplePlan : types.ServiceUpdatePlan :=
  { Name := "prod", InstanceARNs := [some "arn:aws:ecs:us-east-1:123456789012:container-instance/i-1"]
    CurrentServices := [exampleCurrent], NewServices := [exampleNew] }

/-- The current service of `exampleCurrent` with a deployment configuration in
which only the maximum percent is set. -/
def onePercentCurrent : types.ServiceStack :=
  { exampleCurrent with
    Service :=
      { exampleCurrent.Service with
        DeploymentConfiguration :=
          some { MaximumPercent := some 200, MinimumHealthyPercent := none } } }

/-- The plan of `examplePlan` with `onePercentCurrent` as its current service. -/
def onePercentPlan : types.ServiceUpdatePlan :=
  { examplePlan with CurrentServices := [onePercentCurrent] }

/-- An encoder that accepts every plan slice, standing for a successful
`json.Marshal`. -/
def okMarshal : Plans → Except Error String :=
  fun plans => Except.ok ("[" ++ toString plans.length ++ " plans]")

/-- An encoder that rejects the plan slice, standing for a `json.Marshal` that
returns an error. -/
def failingMarshal : Plans → Except Error String :=
  fun _ => Except.error "json: unsupported value"

/-! ## Auxiliary lemmas -/

theorem go_bind_apply {α β : Type} (m : Go α) (f : α → Go β) (o : Bool) :
    (m >>= f) o = Go.bind m f o := rfl

theorem go_pure_apply {α : Type} (a : α) (o : Bool) :
    (pure a : Go α) o = ⟨some a, o, []⟩ := rfl

theorem performed_append (a b : List (Option Call)) :
    performed (a ++ b) = if none ∈ a then performed a else performed a ++ performed b := by
  induction a with
  | nil => simp [performed]
  | cons c a ih =>
    cases c with
    | none => simp [performed]
    | some c => 
      simp only [List.cons_append, performed, ih]
      split <;> simp_all

theorem runCalls_apply (cs : List (Option Call)) (o : Bool) :
    runCalls cs o =
      ⟨if none ∈ cs then none else some (), o, (performed cs).map (Event.util o)⟩ := by
  induction cs with
  | nil => rfl
  | cons c cs ih =>
    cases c with
    | none => simp [runCalls, deref, performed]
    | some c => simp [runCalls, performed, ih]

theorem runCalls_append (a b : List (Option Call)) :
    (runCalls a >>= fun _ => runCalls b) = runCalls (a ++ b) := by
  funext o
  simp only [go_bind_apply, Go.bind, runCalls_apply, performed_append]
  by_cases h : none ∈ a <;> simp [h]

theorem PrintlnYellow_eq (f : String) (args : List fmt.Arg) :
    util.PrintlnYellow f args = runCalls [some (Call.PrintlnYellow f args)] := rfl

theorem Println_eq : util.Println = runCalls [some Call.Println] := rfl

theorem pure_eq : (pure PUnit.unit : Go Unit) = runCalls [] := rfl

theorem deref_bind (p : Option α) (g : α → List (Option Call)) :
    (deref p >>= fun v => runCalls (g v)) =
      runCalls (match p with | none => [none] | some v => g v) := by
  cases p <;> rfl

theorem ifThen_runCalls (c : Prop) [Decidable c] (a : List (Option Call)) :
    ifThen c (runCalls a) = runCalls (if c then a else []) := by
  unfold ifThen
  split <;> rfl

theorem forEach_runCalls {α : Type} (xs : List α) (g : α → List (Option Call)) :
    forEach xs (fun x => runCalls (g x)) = runCalls (xs.flatMap g) := by
  induction xs with
  | nil => rfl
  | cons x xs ih =>
    simp only [forEach, ih, runCalls_append, List.flatMap_cons]

theorem deref_bind_one {α : Type} (p : Option α) (k : α → Call) :
    (deref p >>= fun v => runCalls [some (k v)]) = runCalls [p.map k] := by
  cases p <;> rfl

theorem deref_bind_cons {α : Type} (p : Option α) (k : α → Call) (rest : List (Option Call)) :
    (deref p >>= fun v => runCalls ([some (k v)] ++ rest)) = runCalls ([p.map k] ++ rest) := by
  cases p <;> rfl

theorem printCurrentLoadBalancer_eq (lb : ecs.LoadBalancer) :
    printCurrentLoadBalancer lb = runCalls (currentLoadBalancerCalls lb) := by
  unfold printCurrentLoadBalancer currentLoadBalancerCalls
  simp only [PrintlnYellow_eq, Println_eq, pure_eq, deref_bind_one, deref_bind_cons, deref_bind,
    ifThen_runCalls, runCalls_append]
  cases lb.LoadBalancerName <;> cases lb.TargetGroupArn <;> rfl

theorem forEach_of_eq {α : Type} {f : α → Go Unit} {g : α → List (Option Call)}
    (h : ∀ x, f x = runCalls (g x)) (xs : List α) :
    forEach xs f = runCalls (xs.flatMap g) := by
  have hf : f = fun x => runCalls (g x) := funext h
  rw [hf, forEach_runCalls]

theorem printCurrentService_eq (cst : types.ServiceStack) :
    printCurrentService cst = runCalls (currentServiceCalls cst) := by
  unfold printCurrentService currentServiceCalls
  simp only [PrintlnYellow_eq, Println_eq, pure_eq, deref_bind_one, deref_bind_cons, deref_bind,
    ifThen_runCalls, runCalls_append, forEach_runCalls, forEach_of_eq printCurrentLoadBalancer_eq]
  cases cst.Service.RoleArn <;> cases cst.Service.DeploymentConfiguration <;>
    cases cst.AutoScaling <;> simp

theorem printNewLoadBalancer_eq (lb : types.LoadBalancer) :
    printNewLoadBalancer lb = runCalls ((newLoadBalancerCalls lb).map some) := by
  unfold printNewLoadBalancer newLoadBalancerCalls
  simp only [PrintlnYellow_eq, Println_eq, pure_eq, ifThen_runCalls, runCalls_append]
  cases lb.Name.Valid <;> cases lb.TargetGroupARN.Valid <;> rfl

theorem map_some_flatMap {α β : Type} (xs : List α) (g : α → List β) :
    (xs.flatMap g).map some = xs.flatMap fun x => (g x).map some := by
  induction xs with
  | nil => rfl
  | cons x xs ih => simp [List.flatMap_cons, ih]

theorem printNewService_eq (add : types.Service) :
    printNewService add = runCalls ((newServiceCalls add).map some) := by
  unfold printNewService newServiceCalls
  simp only [PrintlnYellow_eq, Println_eq, pure_eq, deref_bind, ifThen_runCalls,
    runCalls_append, forEach_runCalls, forEach_of_eq printNewLoadBalancer_eq]
  simp only [List.map_append, map_some_flatMap]
  cases add.MinimumHealthyPercent.Valid <;> cases add.MaximumPercent.Valid <;>
    cases add.AutoScaling with
    | none => cases add.PlacementStrategy <;> cases add.PlacementConstraints <;> simp
    | some a =>
      cases h : a.Target <;> cases add.PlacementStrategy <;> cases add.PlacementConstraints <;>
        simp [h]

theorem flatMap_single {α β : Type} (xs : List α) (f : α → β) :
    (xs.flatMap fun x => [f x]) = xs.map f := by
  induction xs with
  | nil => rfl
  | cons x xs ih => simp [List.flatMap_cons, ih]

theorem forEach_instances (xs : List (Option String)) :
    forEach xs (fun inst => do
      util.PrintlnYellow "        %s:" [.str (← deref inst)]) =
    runCalls (xs.map fun inst => inst.map fun v => Call.PrintlnYellow "        %s:" [.str v]) := by
  simp only [PrintlnYellow_eq, deref_bind_one, forEach_runCalls, flatMap_single]

theorem printPlan_eq (planPtr : Option types.ServiceUpdatePlan) :
    printPlan planPtr = runCalls (planPtrCalls planPtr) := by
  cases planPtr with
  | none => rfl
  | some plan =>
    unfold printPlan planPtrCalls planCalls
    simp only [forEach_instances]
    simp only [PrintlnYellow_eq, Println_eq, pure_eq, deref_bind, ifThen_runCalls,
      runCalls_append, forEach_runCalls, forEach_of_eq printCurrentService_eq,
      forEach_of_eq printNewService_eq]
    cases plan.InstanceARNs <;> cases plan.CurrentServices <;> simp

theorem runCalls_bind_apply {α : Type} (cs : List (Option Call)) (k : Go α) (o : Bool) :
    (runCalls cs >>= fun _ => k) o =
      if none ∈ cs then ⟨none, o, (performed cs).map (Event.util o)⟩
      else ⟨(k o).result, (k o).Output, (performed cs).map (Event.util o) ++ (k o).events⟩ := by
  simp only [go_bind_apply, Go.bind, runCalls_apply]
  by_cases h : none ∈ cs <;> simp [h]

theorem createClusterPlansBody_error (jo : Bool) (plans : Plans) (e : Error)
    (Marshal : Plans → Except Error String) (o : Bool) :
    createClusterPlansBody jo (plans, some e) Marshal o =
      ⟨some ([], some e), o, [Event.util o checkingCall]⟩ := by
  unfold createClusterPlansBody
  simp [PrintlnYellow_eq, runCalls_bind_apply, performed, go_pure_apply, checkingCall]

theorem createClusterPlansBody_ok (jo : Bool) (plans : Plans)
    (Marshal : Plans → Except Error String) (o : Bool) :
    createClusterPlansBody jo (plans, none) Marshal o =
      if none ∈ reportCalls plans then
        ⟨none, o, (performed (reportCalls plans)).map (Event.util o)⟩
      else if jo = true then
        match Marshal plans with
        | .ok bt =>
          ⟨some (plans, none), o,
            (performed (reportCalls plans)).map (Event.util o) ++ [Event.stdout bt]⟩
        | .error err =>
          ⟨some (plans, some err), o, (performed (reportCalls plans)).map (Event.util o)⟩
      else
        ⟨some (plans, none), o, (performed (reportCalls plans)).map (Event.util o)⟩ := by
  unfold createClusterPlansBody
  have hmem : (none ∈ reportCalls plans) ↔ none ∈ plans.flatMap planPtrCalls := by
    simp [reportCalls]
  have hperf : performed (reportCalls plans) =
      checkingCall :: performed (plans.flatMap planPtrCalls) := rfl
  simp only [PrintlnYellow_eq, forEach_of_eq printPlan_eq, Option.isSome_none,
    Bool.false_eq_true, if_false, runCalls_bind_apply, hmem, hperf]
  by_cases h : none ∈ plans.flatMap planPtrCalls
  · simp [h, performed, checkingCall]
  · cases jo with
    | false => simp [h, performed, checkingCall, go_pure_apply]
    | true =>
      cases hm : Marshal plans with
      | ok bt =>
        simp [h, performed, checkingCall, go_pure_apply, go_bind_apply, Go.bind, fmtPrintln]
      | error err => simp [h, performed, checkingCall, go_pure_apply]

/-- Closed form of `createClusterPlans` when the collaborator fails. -/
theorem createClusterPlans_error (jo : Bool) (plans : Plans) (e : Error)
    (Marshal : Plans → Except Error String) (o : Bool) :
    createClusterPlans jo (plans, some e) Marshal o =
      ⟨some ([], some e), if jo then true else o,
        [Event.util (if jo then false else o) checkingCall]⟩ := by
  cases jo with
  | false => simp [createClusterPlans, createClusterPlansBody_error]
  | true =>
    simp [createClusterPlans, withDefer, setOutput, go_bind_apply, Go.bind,
      createClusterPlansBody_error]

/-- Closed form of `createClusterPlans` when the collaborator succeeds. -/
theorem createClusterPlans_ok (jo : Bool) (plans : Plans)
    (Marshal : Plans → Except Error String) (o : Bool) :
    createClusterPlans jo (plans, none) Marshal o =
      if none ∈ reportCalls plans then
        ⟨none, if jo then true else o,
          (performed (reportCalls plans)).map (Event.util (if jo then false else o))⟩
      else if jo = true then
        match Marshal plans with
        | .ok bt =>
          ⟨some (plans, none), true,
            (performed (reportCalls plans)).map (Event.util false) ++ [Event.stdout bt]⟩
        | .error err =>
          ⟨some (plans, some err), true, (performed (reportCalls plans)).map (Event.util false)⟩
      else
        ⟨some (plans, none), o, (performed (reportCalls plans)).map (Event.util o)⟩ := by
  cases jo with
  | false => simp [createClusterPlans, createClusterPlansBody_ok]
  | true =>
    simp only [createClusterPlans, withDefer, setOutput, go_bind_apply, Go.bind,
      createClusterPlansBody_ok, if_true]
    by_cases h : none ∈ reportCalls plans
    · simp [h]
    · cases hm : Marshal plans <;> simp [h, hm]

theorem none_mem_map_cons {α : Type} (p : Option α) (k : α → Call)
    (rest : List (Option Call)) :
    none ∈ (p.map k :: rest) ↔ (p.isSome = false ∨ none ∈ rest) := by
  cases p <;> simp

theorem none_mem_some_cons (c : Call) (rest : List (Option Call)) :
    none ∈ (some c :: rest) ↔ none ∈ rest := by
  simp

theorem none_mem_currentLoadBalancerCalls (lb : ecs.LoadBalancer) :
    none ∈ currentLoadBalancerCalls lb ↔ lb.complete = false := by
  unfold currentLoadBalancerCalls ecs.LoadBalancer.complete
  cases lb.LoadBalancerName <;> cases lb.TargetGroupArn <;> cases lb.ContainerName <;>
    cases lb.ContainerPort <;> simp

theorem none_mem_currentServiceCalls (cst : types.ServiceStack) :
    none ∈ currentServiceCalls cst ↔
      ¬ (cst.mandatoryPresent = true ∧ cst.percentagesPresent = true) := by
  unfold currentServiceCalls types.ServiceStack.mandatoryPresent
    types.ServiceStack.percentagesPresent
  have hrole : none ∉ (match cst.Service.RoleArn with
      | none => []
      | some r => [some (Call.PrintlnYellow "        Role = %d" [.str r])]) := by
    cases cst.Service.RoleArn <;> simp
  have hdc : (none ∈ (match cst.Service.DeploymentConfiguration with
      | none => []
      | some dc =>
        [dc.MinimumHealthyPercent.map fun v =>
           Call.PrintlnYellow "        MinimumHealthyPercent = %d" [.int v],
         dc.MaximumPercent.map fun v =>
           Call.PrintlnYellow "        MaximumPercent = %d" [.int v]])) ↔
      (match cst.Service.DeploymentConfiguration with
        | none => true
        | some dc => dc.MinimumHealthyPercent.isSome && dc.MaximumPercent.isSome) = false := by
    cases cst.Service.DeploymentConfiguration with
    | none => simp
    | some dc =>
      rcases dc with ⟨mx, mn⟩
      cases mx <;> cases mn <;> simp
  have hasg : (none ∈ (match cst.AutoScaling with
      | none => []
      | some asg =>
        [some (Call.PrintlnYellow "        AutoScaling:" []),
         asg.ResourceId.map fun v => Call.PrintlnYellow "            ResourceId = %s" [.str v],
         asg.MinCapacity.map fun v => Call.PrintlnYellow "            MinCapacity = %v" [.int v],
         asg.MaxCapacity.map fun v => Call.PrintlnYellow "            MaxCapacity = %v" [.int v],
         asg.RoleARN.map fun v => Call.PrintlnYellow "            RoleARN = %s" [.str v]])) ↔
      (match cst.AutoScaling with
        | none => true
        | some asg =>
          asg.ResourceId.isSome && asg.MinCapacity.isSome && asg.MaxCapacity.isSome &&
          asg.RoleARN.isSome) = false := by
    cases cst.AutoScaling with
    | none => simp
    | some asg =>
      rcases asg with ⟨r, mn, mx, ro⟩
      cases r <;> cases mn <;> cases mx <;> cases ro <;> simp
  have hps : (none ∈ if cst.Service.PlacementStrategy.length > 0 then
      [some (Call.PrintlnYellow "        PlacementStrategy:" [])] else []) ↔ False := by
    split <;> simp
  have hpc : (none ∈ if cst.Service.PlacementConstraints.length > 0 then
      [some (Call.PrintlnYellow "        PlacementConstraints:" [])] else []) ↔ False := by
    split <;> simp
  simp only [List.mem_append, List.mem_flatMap, none_mem_currentLoadBalancerCalls,
    none_mem_map_cons, none_mem_some_cons, List.not_mem_nil, hrole, hdc, hasg, hps, hpc,
    or_false, false_or, Bool.and_eq_true, List.all_eq_true, not_and_or, Bool.not_eq_true,
    not_forall, exists_prop, Bool.and_eq_false_iff]
  clear hrole hdc hasg hps hpc
  generalize (∃ a ∈ cst.Service.LoadBalancers, a.complete = false) = A1
  generalize (∃ a ∈ cst.Service.PlacementStrategy, a.Type_.isSome = false ∨ a.Field.isSome = false) = A2
  generalize (∃ a ∈ cst.Service.PlacementConstraints, a.Type_.isSome = false ∨ a.Expression.isSome = false) = A3
  tauto

theorem none_not_mem_map_some {α : Type} (xs : List α) : none ∉ xs.map some := by
  simp

theorem none_mem_planCalls (plan : types.ServiceUpdatePlan) :
    none ∈ planCalls plan ↔ plan.wellFormed = false := by
  unfold planCalls types.ServiceUpdatePlan.wellFormed
  have h1 : (none ∈ if plan.InstanceARNs.length > 0 then
      [some (Call.PrintlnYellow "    Container Instances as follows:" [])] else []) ↔ False := by
    split <;> simp
  have h2 : (none ∈ if plan.CurrentServices.length = 0 then
      [some (Call.PrintlnYellow "         No services are deployed." [])] else []) ↔ False := by
    split <;> simp
  have h3 : (none ∈ plan.InstanceARNs.map fun inst =>
      inst.map fun v => Call.PrintlnYellow "        %s:" [.str v]) ↔
      ∃ i ∈ plan.InstanceARNs, i.isSome = false := by
    simp only [List.mem_map]
    constructor
    · rintro ⟨i, hi, h⟩
      exact ⟨i, hi, by cases i <;> simp_all⟩
    · rintro ⟨i, hi, h⟩
      exact ⟨i, hi, by cases i <;> simp_all⟩
  simp only [List.mem_append, List.mem_flatMap, none_mem_currentServiceCalls,
    none_mem_some_cons, List.not_mem_nil, h1, h2, h3, none_not_mem_map_some,
    or_false, false_or, Bool.and_eq_true, List.all_eq_true, not_and_or, Bool.not_eq_true,
    not_forall, exists_prop, Bool.and_eq_false_iff, exists_false, and_false]
  simp only [List.all_eq_false, Bool.and_eq_true, not_and_or, Bool.not_eq_true]

theorem none_mem_reportCalls (ps : List types.ServiceUpdatePlan) :
    none ∈ reportCalls (ps.map some) ↔ ∃ p ∈ ps, p.wellFormed = false := by
  unfold reportCalls
  simp only [none_mem_some_cons, List.mem_flatMap, List.mem_map]
  constructor
  · rintro ⟨q, ⟨p, hp, rfl⟩, h⟩
    exact ⟨p, hp, (none_mem_planCalls p).1 h⟩
  · rintro ⟨p, hp, h⟩
    exact ⟨some p, ⟨p, hp, rfl⟩, (none_mem_planCalls p).2 h⟩

theorem none_not_mem_reportCalls (ps : List types.ServiceUpdatePlan)
    (h : ∀ p ∈ ps, p.wellFormed = true) : none ∉ reportCalls (ps.map some) := by
  rw [none_mem_reportCalls]
  rintro ⟨p, hp, hf⟩
  have := h p hp
  simp_all

theorem performed_prefix (cs : List (Option Call)) : (performed cs).map some <+: cs := by
  induction cs with
  | nil => simp [performed]
  | cons c cs ih =>
    cases c with
    | none => simp [performed]
    | some c =>
      simp only [performed, List.map_cons]
      exact (List.prefix_cons_inj (some c)).2 ih

theorem performed_of_not_mem (cs : List (Option Call)) (h : none ∉ cs) :
    (performed cs).map some = cs := by
  induction cs with
  | nil => rfl
  | cons c cs ih =>
    cases c with
    | none => simp at h
    | some c =>
      simp only [performed, List.map_cons]
      rw [ih (fun hm => h (List.mem_cons_of_mem _ hm))]

theorem performed_ne_nil (plans : Plans) : performed (reportCalls plans) ≠ [] := by
  simp [reportCalls, performed]

theorem written_util_false (cs : List Call) : written (cs.map (Event.util false)) = [] := by
  induction cs with
  | nil => rfl
  | cons c cs ih => simpa [written] using ih

theorem written_util_true (cs : List Call) :
    written (cs.map (Event.util true)) = cs.map Call.text := by
  induction cs with
  | nil => rfl
  | cons c cs ih => simp [written, ih]

theorem written_append (a b : List Event) : written (a ++ b) = written a ++ written b := by
  induction a with
  | nil => rfl
  | cons e a ih =>
    cases e with
    | util sw c => cases sw <;> simp [written, ih]
    | stdout t => simp [written, ih]

theorem documents_util (sw : Bool) (cs : List Call) :
    documents (cs.map (Event.util sw)) = [] := by
  induction cs with
  | nil => rfl
  | cons c cs ih => simpa [documents] using ih

theorem documents_append (a b : List Event) :
    documents (a ++ b) = documents a ++ documents b := by
  induction a with
  | nil => rfl
  | cons e a ih => cases e <;> simp [documents, ih]

theorem performed_map_some (cs : List Call) : performed (cs.map some) = cs := by
  induction cs with
  | nil => rfl
  | cons c cs ih => simp [performed, ih]

theorem printNewService_apply (add : types.Service) (o : Bool) :
    printNewService add o = ⟨some (), o, (newServiceCalls add).map (Event.util o)⟩ := by
  rw [printNewService_eq, runCalls_apply]
  simp [performed_map_some]

theorem util_mem_map (o : Bool) (c : Call) (cs : List Call) :
    Event.util o c ∈ cs.map (Event.util o) ↔ c ∈ cs := by
  simp

theorem Sprintf_minimumHealthyPercent (v : Int) :
    fmt.Sprintf "        MinimumHealthyPercent = %d" [.int v] =
      "        MinimumHealthyPercent = " ++ toString v := by
  simp [fmt.Sprintf, fmt.sprintfAux, fmt.verb, fmt.Arg.accepts, fmt.Arg.text, fmt.extra]
  rfl

theorem Sprintf_maximumPercent (v : Int) :
    fmt.Sprintf "        MaximumPercent = %d" [.int v] =
      "        MaximumPercent = " ++ toString v := by
  simp [fmt.Sprintf, fmt.sprintfAux, fmt.verb, fmt.Arg.accepts, fmt.Arg.text, fmt.extra]
  rfl

theorem minimumHealthyPercent_mem (add : types.Service) (args : List fmt.Arg) :
    Call.PrintlnYellow "        MinimumHealthyPercent = %d" args ∈ newServiceCalls add ↔
      (add.MinimumHealthyPercent.Valid = true ∧
        args = [.int add.MinimumHealthyPercent.Int64]) := by
  unfold newServiceCalls
  have hasg : Call.PrintlnYellow "        MinimumHealthyPercent = %d" args ∉
      (match add.AutoScaling.bind fun a => a.Target with
        | none => []
        | some asg =>
          [Call.PrintlnYellow "        AutoScaling:" [],
           Call.PrintlnYellow "            MinCapacity = %v" [.int asg.MinCapacity],
           Call.PrintlnYellow "            MaxCapacity = %v" [.int asg.MaxCapacity],
           Call.PrintlnYellow "            RoleARN = %s" [.str asg.Role]]) := by
    cases add.AutoScaling.bind fun a => a.Target <;> simp
  have hlb : ∀ lb : types.LoadBalancer,
      Call.PrintlnYellow "        MinimumHealthyPercent = %d" args ∉ newLoadBalancerCalls lb := by
    intro lb
    unfold newLoadBalancerCalls
    cases lb.Name.Valid <;> cases lb.TargetGroupARN.Valid <;> simp
  cases hmin : add.MinimumHealthyPercent.Valid <;> cases hmax : add.MaximumPercent.Valid <;>
    simp [List.mem_flatMap, hasg, hlb, eq_comm]

theorem maximumPercent_mem (add : types.Service) (args : List fmt.Arg) :
    Call.PrintlnYellow "        MaximumPercent = %d" args ∈ newServiceCalls add ↔
      (add.MaximumPercent.Valid = true ∧ args = [.int add.MaximumPercent.Int64]) := by
  unfold newServiceCalls
  have hasg : Call.PrintlnYellow "        MaximumPercent = %d" args ∉
      (match add.AutoScaling.bind fun a => a.Target with
        | none => []
        | some asg =>
          [Call.PrintlnYellow "        AutoScaling:" [],
           Call.PrintlnYellow "            MinCapacity = %v" [.int asg.MinCapacity],
           Call.PrintlnYellow "            MaxCapacity = %v" [.int asg.MaxCapacity],
           Call.PrintlnYellow "            RoleARN = %s" [.str asg.Role]]) := by
    cases add.AutoScaling.bind fun a => a.Target <;> simp
  have hlb : ∀ lb : types.LoadBalancer,
      Call.PrintlnYellow "        MaximumPercent = %d" args ∉ newLoadBalancerCalls lb := by
    intro lb
    unfold newLoadBalancerCalls
    cases lb.Name.Valid <;> cases lb.TargetGroupARN.Valid <;> simp
  cases hmin : add.MinimumHealthyPercent.Valid <;> cases hmax : add.MaximumPercent.Valid <;>
    simp [List.mem_flatMap, hasg, hlb, eq_comm]

/-! ## The pre-run hook -/

/-- C5: when the project directory resolves and the flag lookups succeed,
`PersistentPreRunE` returns the error "-c (--cluster) is required" exactly when
the cluster flag is empty; with an empty cluster flag it returns it whatever
the later lookups give (the check comes first), and the package variables
`cluster`, `serviceName`, `parameters` and `jsonOutput` keep their values. -/
theorem PersistentPreRunE_cluster_required
    (ParseKeyValues : List String → List (String × String))
    (pd region cl sv : String) (all : Bool) (paramTokens : List String) (jo : Bool)
    (g : Globals) :
    ((PersistentPreRunE ParseKeyValues
        (Invocation.ofFlags pd region cl sv all paramTokens jo) g).1 =
          some "-c (--cluster) is required" ↔ cl = "") ∧
    (∀ inv : Invocation, inv.GetProjectDir = Except.ok pd → inv.clusterFlag = Except.ok "" →
      (PersistentPreRunE ParseKeyValues inv g).1 = some "-c (--cluster) is required" ∧
      (PersistentPreRunE ParseKeyValues inv g).2.cluster = g.cluster ∧
      (PersistentPreRunE ParseKeyValues inv g).2.serviceName = g.serviceName ∧
      (PersistentPreRunE ParseKeyValues inv g).2.parameters = g.parameters ∧
      (PersistentPreRunE ParseKeyValues inv g).2.jsonOutput = g.jsonOutput) := by
  constructor
  · by_cases hcl : cl = ""
    · simp [PersistentPreRunE, Invocation.ofFlags, hcl]
    · by_cases hsv : sv = "" ∧ all = false
      · simp [PersistentPreRunE, Invocation.ofFlags, hcl, hsv]
      · simp [PersistentPreRunE, Invocation.ofFlags, hcl, hsv]
  · intro inv hpd hc
    simp [PersistentPreRunE, hpd, hc]

/-- The hook run with an empty cluster flag on top of earlier settings: the
C5 error, with the earlier `cluster` left in place. -/
theorem PersistentPreRunE_cluster_required_witness :
    (PersistentPreRunE (fun _ => [])
        (Invocation.ofFlags "/srv/project" "us-east-1" "" "web" true [] true)
        { projectDir := "", cluster := "old", serviceName := "", parameters := [],
          jsonOutput := false, clientInit := none }).1 = some "-c (--cluster) is required" ∧
    (PersistentPreRunE (fun _ => [])
        (Invocation.ofFlags "/srv/project" "us-east-1" "" "web" true [] true)
        { projectDir := "", cluster := "old", serviceName := "", parameters := [],
          jsonOutput := false, clientInit := none }).2.cluster = "old" :=
  ⟨((PersistentPreRunE_cluster_required (fun _ => []) "/srv/project" "us-east-1" "" "web" true
      [] true _).2 _ rfl rfl).1,
   ((PersistentPreRunE_cluster_required (fun _ => []) "/srv/project" "us-east-1" "" "web" true
      [] true _).2 _ rfl rfl).2.1⟩

/-- C6: with a non-empty cluster flag and successful lookups, `PersistentPreRunE`
returns the error "should specify '-s service_name' or '--all' option" if and
only if the service flag is empty and `--all` is false; otherwise it returns
nil and leaves `cluster`, `serviceName` and `jsonOutput` equal to the flag
values and `parameters` equal to `util.ParseKeyValues` of the tokens. -/
theorem PersistentPreRunE_service_or_all
    (ParseKeyValues : List String → List (String × String))
    (pd region cl sv : String) (all : Bool) (paramTokens : List String) (jo : Bool)
    (g : Globals) (hcl : cl ≠ "") :
    ((PersistentPreRunE ParseKeyValues
        (Invocation.ofFlags pd region cl sv all paramTokens jo) g).1 =
          some "should specify '-s service_name' or '--all' option" ↔
        (sv = "" ∧ all = false)) ∧
    (¬ (sv = "" ∧ all = false) →
      PersistentPreRunE ParseKeyValues
        (Invocation.ofFlags pd region cl sv all paramTokens jo) g =
        (none, { projectDir := pd, cluster := cl, serviceName := sv,
                 parameters := ParseKeyValues paramTokens, jsonOutput := jo,
                 clientInit := some (region, false) })) := by
  by_cases hsv : sv = "" ∧ all = false
  · simp [PersistentPreRunE, Invocation.ofFlags, hcl, hsv]
  · simp [PersistentPreRunE, Invocation.ofFlags, hcl, hsv]

/-- The hook run with cluster `prod`, no service and `--all`: it returns nil and
stores the flag values. -/
theorem PersistentPreRunE_service_or_all_witness :
    PersistentPreRunE (fun toks => toks.map fun t => (t, ""))
        (Invocation.ofFlags "/srv/project" "us-east-1" "prod" "" true ["env"] true)
        { projectDir := "", cluster := "", serviceName := "", parameters := [],
          jsonOutput := false, clientInit := none } =
      (none, { projectDir := "/srv/project", cluster := "prod", serviceName := "",
               parameters := [("env", "")], jsonOutput := true,
               clientInit := some ("us-east-1", false) }) :=
  (PersistentPreRunE_service_or_all (fun toks => toks.map fun t => (t, ""))
    "/srv/project" "us-east-1" "prod" "" true ["env"] true _ (by decide)).2 (by decide)

/-! ## `createClusterPlans`: errors, results and the print switch -/

/-- C2: when `srv.CreateServiceUpdatePlans` returns an error, `createClusterPlans`
returns that error with an empty plan slice, whatever plans came with it; it
hands nothing to `fmt.Println`, and in JSON mode nothing at all is written. -/
theorem createClusterPlans_collaborator_error (jo : Bool) (plans : Plans) (e : Error)
    (Marshal : Plans → Except Error String) (o : Bool) :
    (createClusterPlans jo (plans, some e) Marshal o).result = some ([], some e) ∧
    documents (createClusterPlans jo (plans, some e) Marshal o).events = [] ∧
    written (createClusterPlans true (plans, some e) Marshal o).events = [] := by
  simp [createClusterPlans_error, documents, written]

/-- C10: in JSON mode `util.Output` is true after `createClusterPlans` on every
path (collaborator error, nil dereference, marshal error, success), whatever it
was before; outside JSON mode it is never assigned: it has its entry value at
every printing call and afterwards. -/
theorem createClusterPlans_Output (srv : Plans × Option Error)
    (Marshal : Plans → Except Error String) (o : Bool) :
    (createClusterPlans true srv Marshal o).Output = true ∧
    (createClusterPlans false srv Marshal o).Output = o ∧
    (∃ calls : List Call,
      (createClusterPlans false srv Marshal o).events = calls.map (Event.util o)) := by
  rcases srv with ⟨plans, err⟩
  cases err with
  | some e =>
    refine ⟨by simp [createClusterPlans_error], by simp [createClusterPlans_error], ?_⟩
    exact ⟨[checkingCall], by simp [createClusterPlans_error]⟩
  | none =>
    refine ⟨?_, ?_, ?_⟩
    · rw [createClusterPlans_ok]
      by_cases h : none ∈ reportCalls plans
      · simp [h]
      · cases hm : Marshal plans <;> simp [h]
    · rw [createClusterPlans_ok]
      by_cases h : none ∈ reportCalls plans <;> simp [h]
    · refine ⟨performed (reportCalls plans), ?_⟩
      rw [createClusterPlans_ok]
      by_cases h : none ∈ reportCalls plans <;> simp [h]

/-- C3, as stated, fails on the code: the collaborator succeeds, the walk over
the plans completes, and in JSON mode an encoder error is returned with the
plans, so the error is not nil (and no document is emitted). -/
theorem createClusterPlans_marshal_error_counterexample :
    (createClusterPlans true ([some examplePlan], none) failingMarshal true).result =
      some ([some examplePlan], some "json: unsupported value") ∧
    (createClusterPlans true ([some examplePlan], none) failingMarshal true).result ≠
      some ([some examplePlan], none) ∧
    documents (createClusterPlans true ([some examplePlan], none) failingMarshal true).events =
      [] := by
  decide

/-- C3, amended: when `srv.CreateServiceUpdatePlans` succeeds with `P`, whatever
`createClusterPlans` returns carries exactly `P`; if no pointer the walk
dereferences is nil, it does return: outside JSON mode with a nil error and no
document; in JSON mode, when `json.Marshal` succeeds, with a nil error and the
one document `Marshal P`, the encoding of the whole of `P`; and when
`json.Marshal` fails, with `P`, that error and no document. -/
theorem createClusterPlans_returns_plans (ps : List types.ServiceUpdatePlan)
    (Marshal : Plans → Except Error String) (o : Bool)
    (hwf : ∀ p ∈ ps, p.wellFormed = true) :
    (∀ (P : Plans) (jo : Bool) (r : Plans × Option Error),
      (createClusterPlans jo (P, none) Marshal o).result = some r → r.1 = P) ∧
    (createClusterPlans false (ps.map some, none) Marshal o).result =
      some (ps.map some, none) ∧
    documents (createClusterPlans false (ps.map some, none) Marshal o).events = [] ∧
    (∀ doc, Marshal (ps.map some) = Except.ok doc →
      (createClusterPlans true (ps.map some, none) Marshal o).result =
        some (ps.map some, none) ∧
      documents (createClusterPlans true (ps.map some, none) Marshal o).events = [doc]) ∧
    (∀ err, Marshal (ps.map some) = Except.error err →
      (createClusterPlans true (ps.map some, none) Marshal o).result =
        some (ps.map some, some err) ∧
      documents (createClusterPlans true (ps.map some, none) Marshal o).events = []) := by
  have hn := none_not_mem_reportCalls ps hwf
  refine ⟨?_, ?_, ?_, ?_, ?_⟩
  · intro P jo r
    rw [createClusterPlans_ok]
    by_cases h : none ∈ reportCalls P
    · simp [h]
    · cases jo with
      | false =>
        simp only [h, if_false, Bool.false_eq_true]
        intro hr
        cases hr
        rfl
      | true =>
        cases hm : Marshal P with
        | ok bt =>
          simp only [h, if_false, if_true]
          intro hr
          cases hr
          rfl
        | error err =>
          simp only [h, if_false, if_true]
          intro hr
          cases hr
          rfl
  · simp [createClusterPlans_ok, hn]
  · simp [createClusterPlans_ok, hn, documents_util]
  · intro doc hm
    rw [createClusterPlans_ok]
    simp [hn, hm, documents_append, documents_util, documents]
  · intro err hm
    rw [createClusterPlans_ok]
    simp [hn, hm, documents_util]

/-- The example plan in JSON mode with an encoder that succeeds: it is returned
unchanged with a nil error, and the one document is the encoder's output for
the whole slice. -/
theorem createClusterPlans_returns_plans_witness :
    (createClusterPlans true ([examplePlan].map some, none) okMarshal true).result =
      some ([examplePlan].map some, none) ∧
    documents (createClusterPlans true ([examplePlan].map some, none) okMarshal true).events =
      ["[1 plans]"] :=
  (createClusterPlans_returns_plans [examplePlan] okMarshal true (by decide)).2.2.2.1
    "[1 plans]" rfl

/-- C7 fails on the code: a current service with every mandatory field present
and a deployment configuration in which only the maximum percent is set makes
`createClusterPlans` panic (nil dereference at line 132), in either mode; more
generally the block of any current service whose deployment configuration
lacks one of the two percentages panics. -/
theorem createClusterPlans_one_percentage_panics (jo : Bool)
    (Marshal : Plans → Except Error String) (o : Bool) :
    onePercentCurrent.mandatoryPresent = true ∧
    (createClusterPlans jo ([some onePercentPlan], none) Marshal o).result = none ∧
    (∀ (cst : types.ServiceStack) (mx : Option Int),
      (printCurrentService
        { cst with
          Service :=
            { cst.Service with
              DeploymentConfiguration :=
                some { MaximumPercent := mx, MinimumHealthyPercent := none } } } o).result =
        none) ∧
    (∀ (cst : types.ServiceStack) (mn : Option Int),
      (printCurrentService
        { cst with
          Service :=
            { cst.Service with
              DeploymentConfiguration :=
                some { MaximumPercent := none, MinimumHealthyPercent := mn } } } o).result =
        none) := by
  refine ⟨by decide, ?_, ?_, ?_⟩
  · have h : none ∈ reportCalls ([onePercentPlan].map some) :=
      (none_mem_reportCalls [onePercentPlan]).2 ⟨onePercentPlan, by simp, by decide⟩
    rw [createClusterPlans_ok]
    simp only [List.map_cons, List.map_nil] at h
    simp [h]
  · intro cst mx
    rw [printCurrentService_eq, runCalls_apply]
    have h := (none_mem_currentServiceCalls
      { cst with
        Service :=
          { cst.Service with
            DeploymentConfiguration :=
              some { MaximumPercent := mx, MinimumHealthyPercent := none } } }).2
      (by simp [types.ServiceStack.percentagesPresent])
    simp [h]
  · intro cst mn
    rw [printCurrentService_eq, runCalls_apply]
    have h := (none_mem_currentServiceCalls
      { cst with
        Service :=
          { cst.Service with
            DeploymentConfiguration :=
              some { MaximumPercent := none, MinimumHealthyPercent := mn } } }).2
      (by simp [types.ServiceStack.percentagesPresent])
    simp [h]

/-- C8 fails on the code: for a current service with an IAM role the human
report carries the line `Role = %!d(string=<role>)` (the verb `%d` applied to a
string) and no line `Role = <role>`; for every role string the call of line
129 renders to that text, never to `Role = <role>`. -/
theorem createClusterPlans_role_line :
    "        Role = %!d(string=arn:aws:iam::123456789012:role/ecsServiceRole)" ∈
      written (createClusterPlans false ([some examplePlan], none) okMarshal true).events ∧
    "        Role = arn:aws:iam::123456789012:role/ecsServiceRole" ∉
      written (createClusterPlans false ([some examplePlan], none) okMarshal true).events ∧
    (∀ r : String,
      (Call.PrintlnYellow "        Role = %d" [.str r]).text =
        "        Role = %!d(string=" ++ r ++ ")") ∧
    (∀ r : String,
      (Call.PrintlnYellow "        Role = %d" [.str r]).text ≠ "        Role = " ++ r) := by
  have htext : ∀ r : String,
      (Call.PrintlnYellow "        Role = %d" [.str r]).text =
        "        Role = %!d(string=" ++ r ++ ")" := by
    intro r
    simp [Call.text, fmt.Sprintf, fmt.sprintfAux, fmt.verb, fmt.Arg.accepts, fmt.Arg.text,
      fmt.Arg.goType, fmt.extra]
    rfl
  refine ⟨by decide, by decide, htext, ?_⟩
  intro r h
  rw [htext] at h
  have hlen := congrArg String.length h
  have h1 : "        Role = %!d(string=".length = 26 := by decide
  have h2 : ")".length = 1 := by decide
  have h3 : "        Role = ".length = 15 := by decide
  simp only [String.length_append, h1, h2, h3] at hlen
  omega

/-! ## The two output modes and the shape of the report -/

/-- C1: the two output modes exclude each other.  In JSON mode every `util`
printing call is made while `util.Output` is false, so no report line is
written, and what is written is nothing but the JSON line: exactly that line
when the walk completes and the encoder succeeds.  Outside JSON mode nothing
is handed to `fmt.Println`, every report call is made with the switch as it
was on entry, and with the switch on the whole report is written. -/
theorem createClusterPlans_modes_exclusive (srv : Plans × Option Error)
    (Marshal : Plans → Except Error String) (o : Bool) :
    (∃ (calls : List Call) (docs : List String),
      (createClusterPlans true srv Marshal o).events =
        calls.map (Event.util false) ++ docs.map Event.stdout ∧
      written (createClusterPlans true srv Marshal o).events = docs ∧
      (docs = [] ∨ ∃ doc, Marshal srv.1 = Except.ok doc ∧ docs = [doc])) ∧
    (∀ (ps : List types.ServiceUpdatePlan) (doc : String),
      (∀ p ∈ ps, p.wellFormed = true) → Marshal (ps.map some) = Except.ok doc →
      written (createClusterPlans true (ps.map some, none) Marshal o).events = [doc]) ∧
    (∃ calls : List Call, calls ≠ [] ∧
      (createClusterPlans false srv Marshal o).events = calls.map (Event.util o) ∧
      documents (createClusterPlans false srv Marshal o).events = [] ∧
      written (createClusterPlans false srv Marshal true).events = calls.map Call.text) ∧
    (∀ ps : List types.ServiceUpdatePlan, (∀ p ∈ ps, p.wellFormed = true) →
      ∃ calls : List Call, calls.map some = reportCalls (ps.map some) ∧
        written (createClusterPlans false (ps.map some, none) Marshal true).events =
          calls.map Call.text) := by
  refine ⟨?_, ?_, ?_, ?_⟩
  · rcases srv with ⟨plans, err⟩
    cases err with
    | some e =>
      exact ⟨[checkingCall], [], by simp [createClusterPlans_error],
        by simp [createClusterPlans_error, written], Or.inl rfl⟩
    | none =>
      by_cases h : none ∈ reportCalls plans
      · refine ⟨performed (reportCalls plans), [], ?_, ?_, Or.inl rfl⟩
        · rw [createClusterPlans_ok]
          simp [h]
        · rw [createClusterPlans_ok]
          simp [h, written_util_false]
      · cases hm : Marshal plans with
        | ok bt =>
          refine ⟨performed (reportCalls plans), [bt], ?_, ?_, Or.inr ⟨bt, rfl, rfl⟩⟩
          · rw [createClusterPlans_ok]
            simp [h, hm]
          · rw [createClusterPlans_ok]
            simp [h, hm, written_append, written_util_false, written]
        | error err =>
          refine ⟨performed (reportCalls plans), [], ?_, ?_, Or.inl rfl⟩
          · rw [createClusterPlans_ok]
            simp [h, hm]
          · rw [createClusterPlans_ok]
            simp [h, hm, written_util_false]
  · intro ps doc hwf hm
    have hn := none_not_mem_reportCalls ps hwf
    rw [createClusterPlans_ok]
    simp [hn, hm, written_append, written_util_false, written]
  · rcases srv with ⟨plans, err⟩
    cases err with
    | some e =>
      exact ⟨[checkingCall], by simp, by simp [createClusterPlans_error],
        by simp [createClusterPlans_error, documents],
        by simp [createClusterPlans_error, written, checkingCall]⟩
    | none =>
      refine ⟨performed (reportCalls plans), performed_ne_nil plans, ?_, ?_, ?_⟩
      · rw [createClusterPlans_ok]
        by_cases h : none ∈ reportCalls plans <;> simp [h]
      · rw [createClusterPlans_ok]
        by_cases h : none ∈ reportCalls plans <;> simp [h, documents_util]
      · rw [createClusterPlans_ok]
        by_cases h : none ∈ reportCalls plans <;> simp [h, written_util_true]
  · intro ps hwf
    have hn := none_not_mem_reportCalls ps hwf
    refine ⟨performed (reportCalls (ps.map some)), performed_of_not_mem _ hn, ?_⟩
    rw [createClusterPlans_ok]
    simp [hn, written_util_true]

/-- The example plan in JSON mode: the only line written is the document. -/
theorem createClusterPlans_modes_exclusive_witness :
    written (createClusterPlans true ([examplePlan].map some, none) okMarshal true).events =
      ["[1 plans]"] :=
  (createClusterPlans_modes_exclusive ([examplePlan].map some, none) okMarshal true).2.1
    [examplePlan] "[1 plans]" (by decide) rfl

/-- Outside JSON mode the report calls are, for every plan sequence, an initial
segment of the concatenation, in plan order, of one block per plan (after the
opening line), and the whole of it when no dereferenced pointer is nil.  Each
block is: cluster header, the instance identifiers in `InstanceARNs` order, the
current services in `CurrentServices` order, then the section
`Service update plan` with one entry per planned service in `NewServices`
order. -/
theorem createClusterPlans_report_prefix (ps : List types.ServiceUpdatePlan)
    (Marshal : Plans → Except Error String) (o : Bool) :
    (∃ calls : List Call,
      (createClusterPlans false (ps.map some, none) Marshal o).events =
        calls.map (Event.util o) ∧
      calls.map some <+: reportCalls (ps.map some) ∧
      ((∀ p ∈ ps, p.wellFormed = true) → calls.map some = reportCalls (ps.map some))) ∧
    reportCalls (ps.map some) =
      some (Call.PrintlnYellow "Checking services on clusters..." []) ::
        ps.flatMap fun plan =>
          [some (Call.PrintlnYellow "Current status of ECS Cluster '%s':" [.str plan.Name])] ++
          (if plan.InstanceARNs.length > 0 then
            [some (Call.PrintlnYellow "    Container Instances as follows:" [])] else []) ++
          (plan.InstanceARNs.map fun inst =>
            inst.map fun v => Call.PrintlnYellow "        %s:" [.str v]) ++
          [some Call.Println, some (Call.PrintlnYellow "    Services as follows:" [])] ++
          (if plan.CurrentServices.length = 0 then
            [some (Call.PrintlnYellow "         No services are deployed." [])] else []) ++
          plan.CurrentServices.flatMap currentServiceCalls ++
          [some Call.Println,
           some (Call.PrintlnYellow "Service update plan '%s':" [.str plan.Name]),
           some (Call.PrintlnYellow "    Services:" [])] ++
          (plan.NewServices.flatMap fun add => (newServiceCalls add).map some) ++
          [some Call.Println] := by
  constructor
  · refine ⟨performed (reportCalls (ps.map some)), ?_, performed_prefix _, ?_⟩
    · rw [createClusterPlans_ok]
      by_cases h : none ∈ reportCalls (ps.map some) <;> simp [h]
    · intro hwf
      exact performed_of_not_mem _ (none_not_mem_reportCalls ps hwf)
  · unfold reportCalls checkingCall
    congr 1
    induction ps with
    | nil => rfl
    | cons p ps ih =>
      simp only [List.map_cons, List.flatMap_cons, ih]
      rfl

/-- C4 fails on the code: for the one-plan sequence `onePercentPlan` (a current
service whose deployment configuration carries only the maximum percent, one
planned service) the walk panics at line 132 after 13 of the 35 print
statements of the plan's block: the report stops inside the current service,
and the section `Service update plan` with the entry of the planned service is
never printed, so the report is not the concatenation of one complete block per
plan. -/
theorem createClusterPlans_report_truncated :
    onePercentPlan.NewServices = [exampleNew] ∧
    (reportCalls [some onePercentPlan]).length = 35 ∧
    (createClusterPlans false ([some onePercentPlan], none) okMarshal true).result = none ∧
    written (createClusterPlans false ([some onePercentPlan], none) okMarshal true).events =
      ["Checking services on clusters...",
       "Current status of ECS Cluster 'prod':",
       "    Container Instances as follows:",
       "        arn:aws:ecs:us-east-1:123456789012:container-instance/i-1:",
       "",
       "    Services as follows:",
       "        ####[web]####\n",
       "        ServiceARN = arn:aws:ecs:us-east-1:123456789012:service/web",
       "        TaskDefinition = web:3",
       "        DesiredCount = 2",
       "        PendingCount = 0",
       "        RunningCount = 2",
       "        Role = %!d(string=arn:aws:iam::123456789012:role/ecsServiceRole)"] ∧
    Event.util true (Call.PrintlnYellow "Service update plan '%s':" [.str "prod"]) ∉
      (createClusterPlans false ([some onePercentPlan], none) okMarshal true).events ∧
    Event.util true (Call.PrintlnYellow "        ####[%s]####\n" [.str "web"]) ∈
      (createClusterPlans false ([some onePercentPlan], none) okMarshal true).events ∧
    Event.util true (Call.PrintlnYellow "        TaskDefinition = %s" [.str "web:4"]) ∉
      (createClusterPlans false ([some onePercentPlan], none) okMarshal true).events := by
  decide

/-! ## Planned services: the two percentages -/

/-- C9: the entry of a planned service (the body of the loop over
`plan.NewServices`) never panics, and it makes a `MinimumHealthyPercent` call
(respectively `MaximumPercent`) if and only if the value is `Valid`, with the
stored `Int64` as its operand; the line shows that number in decimal, so a
present zero is printed as `0` and an absent value prints no line. -/
theorem printNewService_percent_lines (add : types.Service) (o : Bool) :
    (printNewService add o).result = some () ∧
    (∀ args : List fmt.Arg,
      Event.util o (Call.PrintlnYellow "        MinimumHealthyPercent = %d" args) ∈
          (printNewService add o).events ↔
        (add.MinimumHealthyPercent.Valid = true ∧
          args = [.int add.MinimumHealthyPercent.Int64])) ∧
    (∀ args : List fmt.Arg,
      Event.util o (Call.PrintlnYellow "        MaximumPercent = %d" args) ∈
          (printNewService add o).events ↔
        (add.MaximumPercent.Valid = true ∧ args = [.int add.MaximumPercent.Int64])) ∧
    (∀ v : Int,
      (Call.PrintlnYellow "        MinimumHealthyPercent = %d" [.int v]).text =
        "        MinimumHealthyPercent = " ++ toString v) ∧
    (∀ v : Int,
      (Call.PrintlnYellow "        MaximumPercent = %d" [.int v]).text =
        "        MaximumPercent = " ++ toString v) ∧
    (Call.PrintlnYellow "        MinimumHealthyPercent = %d" [.int 0]).text =
      "        MinimumHealthyPercent = 0" ∧
    (Call.PrintlnYellow "        MaximumPercent = %d" [.int 0]).text =
      "        MaximumPercent = 0" := by
  refine ⟨by rw [printNewService_apply], ?_, ?_, ?_, ?_, by decide, by decide⟩
  · intro args
    rw [printNewService_apply]
    exact (util_mem_map o _ _).trans (minimumHealthyPercent_mem add args)
  · intro args
    rw [printNewService_apply]
    exact (util_mem_map o _ _).trans (maximumPercent_mem add args)
  · intro v
    exact Sprintf_minimumHealthyPercent v
  · intro v
    exact Sprintf_maximumPercent v

end EcsFormation
